import Mathlib

/-!
Shallow embedding of the generational handle system in `include/util/Handle.h`
(namespace `ECS::util`): the bit-layout constants of the `Internal::Handle`
union and the slot table `HandleTable<T, handle_version, grow>`.

Modelling conventions:
* a slot (`TableEntry`) is the `std::pair<version_type, T*>` of the source,
  with the raw pointer modelled as `Option T` (`none` = `nullptr`);
* every operation that contains an `assert(...)` or a potentially
  out-of-bounds `std::vector::operator[]` access returns an `Option`,
  where `none` marks the fatal path (failed assertion / undefined access);
* machine integers are modelled as `Nat`; the only place where the fixed
  width of a C++ type matters for a defined result is the constant
  expression `(1U << n) - 1U`, modelled by `shl1USub1` below.
-/

namespace ECS
namespace util

/-- The C++ constant expression `(1U << n) - 1U` used to initialize
`MAX_VERSION` and `MAX_INDICES` (Handle.h lines 45-46).  The literal `1U` has
type `unsigned int`, which is 32 bits wide, so for a shift count of 32 or more
the expression is undefined (C++ [expr.shift]) and denotes no value; for a
shift count below 32 it equals `2 ^ n - 1` (no wraparound occurs in the
subtraction since `1U << n` is at least 1). -/
def shl1USub1 (n : Nat) : Option Nat :=
  if n < 32 then some (2 ^ n - 1) else none

/-- The slot version floor `MIN_VERISON { 0 }` (the transposed spelling is the
source's). -/
def MIN_VERISON : Nat := 0

namespace Handle32

/-- `Handle32 = Internal::Handle<u16, u32, 12, 20>`: 12 version bits. -/
def NUM_VERSION_BITS : Nat := 12

/-- `Handle32 = Internal::Handle<u16, u32, 12, 20>`: 20 index bits. -/
def NUM_INDEX_BITS : Nat := 20

/-- `MIN_VERISON { 0 }` for the 32-bit handle. -/
def MIN_VERISON : Nat := 0

/-- `MAX_VERSION { (1U << NUM_VERSION_BITS) - 1U }` for the 32-bit handle. -/
def MAX_VERSION : Option Nat := shl1USub1 NUM_VERSION_BITS

/-- `MAX_INDICES { (1U << NUM_INDEX_BITS) - 1U }` for the 32-bit handle. -/
def MAX_INDICES : Option Nat := shl1USub1 NUM_INDEX_BITS

end Handle32

namespace Handle64

/-- `Handle64 = Internal::Handle<u32, u64, 24, 40>` (the `ECS_64BIT` branch):
24 version bits. -/
def NUM_VERSION_BITS : Nat := 24

/-- `Handle64 = Internal::Handle<u32, u64, 24, 40>` (the `ECS_64BIT` branch):
40 index bits. -/
def NUM_INDEX_BITS : Nat := 40

/-- `MIN_VERISON { 0 }` for the 64-bit handle. -/
def MIN_VERISON : Nat := 0

/-- `MAX_VERSION { (1U << NUM_VERSION_BITS) - 1U }` for the 64-bit handle. -/
def MAX_VERSION : Option Nat := shl1USub1 NUM_VERSION_BITS

/-- `MAX_INDICES { (1U << NUM_INDEX_BITS) - 1U }` for the 64-bit handle: the
shift count 40 reaches past the 32-bit width of `1U`. -/
def MAX_INDICES : Option Nat := shl1USub1 NUM_INDEX_BITS

end Handle64

/-- A handle value: the `(index, version)` bitfield pair of the
`Internal::Handle` union, as seen by `HandleTable`. -/
structure Handle where
  index : Nat
  version : Nat
  deriving DecidableEq, Repr

/-- One slot of the table: `using TableEntry = std::pair<typename
Handle::version_type, T*>`; `.1` is the version counter, `.2` the stored
pointer (`none` = `nullptr`). -/
abbrev TableEntry (T : Type) : Type := Nat × Option T

/-- The backing store `std::vector<TableEntry> m_Table`. -/
abbrev Table (T : Type) : Type := List (TableEntry T)

variable {T : Type}

/-- `HandleTable::GrowTable`: asserts `oldSize < Handle::MAX_INDICES`
(`none` on failure), then resizes to `min(oldSize + grow, Handle::MAX_INDICES)`
and initializes every new slot to `(MIN_VERISON, nullptr)`. -/
def GrowTable (maxIndices grow : Nat) (t : Table T) : Option (Table T) :=
  if t.length < maxIndices then
    some (t ++ List.replicate (min (t.length + grow) maxIndices - t.length)
      ((MIN_VERISON : Nat), (none : Option T)))
  else
    none

/-- The `for` loop of `HandleTable::AqcuireHandle`: index of the first slot
whose stored pointer is `nullptr`, scanning from index 0. -/
def findEmptySlot : Table T → Option Nat
  | [] => none
  | e :: rest =>
    if e.2.isNone then some 0 else (findEmptySlot rest).map (fun i => i + 1)

/-- The version update on slot reuse (Handle.h line 143):
`((first + 1) > MAX_VERSION) ? MIN_VERISON : first + 1`.  The addition is
performed after integer promotion, so it does not wrap at the width of
`version_type`. -/
def nextVersion (maxVersion v : Nat) : Nat :=
  if v + 1 > maxVersion then MIN_VERISON else v + 1

/-- `HandleTable::AqcuireHandle` (the source's spelling): first-fit scan for an
empty slot; on a hit, stores the pointer, bumps the slot version with
wraparound and returns `Handle(i, new version)`.  If no slot is empty it calls
`GrowTable` and then executes `m_Table[i].second = rawObject; return Handle(i,
m_Table[i].first++);` with `i = oldSize` — a post-increment, so the returned
handle carries the slot's version from before the increment.  (The slot at
`oldSize` was just initialized to version `MIN_VERISON = 0`, so the bare `+ 1`
cannot overflow `version_type`.)  `none` marks the fatal path: the assertion
inside `GrowTable`, or the out-of-bounds vector access when growth added no
slot. -/
def AqcuireHandle (maxVersion maxIndices grow : Nat) (t : Table T)
    (rawObject : Option T) : Option (Handle × Table T) :=
  match findEmptySlot t with
  | some i =>
    match t[i]? with
    | some e =>
      some (⟨i, nextVersion maxVersion e.1⟩,
        t.set i (nextVersion maxVersion e.1, rawObject))
    | none => none
  | none =>
    match GrowTable maxIndices grow t with
    | some t2 =>
      match t2[t.length]? with
      | some e => some (⟨t.length, e.1⟩, t2.set t.length (e.1 + 1, rawObject))
      | none => none
    | none => none

/-- `HandleTable::ReleaseHandle`: asserts that the index is in bounds and the
handle's version matches the slot's (`none` on failure), then clears the
slot's pointer to `nullptr`.  The slot's version is left untouched. -/
def ReleaseHandle (t : Table T) (h : Handle) : Option (Table T) :=
  match t[h.index]? with
  | some e =>
    if h.version = e.1 then some (t.set h.index (e.1, none)) else none
  | none => none

/-- `HandleTable::IsExpired`: `m_Table[handle.index].first != handle.version`.
No bounds check is performed, so an out-of-bounds index is an undefined vector
access, modelled as `none`. -/
def IsExpired (t : Table T) (h : Handle) : Option Bool :=
  (t[h.index]?).map (fun e => e.1 != h.version)

/-- `HandleTable::operator[](index_type)`: asserts the index is in bounds
(`none` on failure) and returns `Handle(index, m_Table[index].first)`. -/
def getHandleAt (t : Table T) (index : Nat) : Option Handle :=
  match t[index]? with
  | some e => some ⟨index, e.1⟩
  | none => none

/-- `HandleTable::operator[](Handle)`: asserts that the index is in bounds and
the handle's version matches the slot's (`none` on failure), then returns
`first == handle.version ? second : nullptr`.  The inner result is the
returned pointer (`none` = `nullptr`). -/
def deref (t : Table T) (h : Handle) : Option (Option T) :=
  match t[h.index]? with
  | some e =>
    if h.version = e.1 then
      some (if e.1 = h.version then e.2 else none)
    else
      none
  | none => none

/-- The constructor `HandleTable::HandleTable()`: starts from an empty vector
and performs one `GrowTable()`. -/
def HandleTableInit (T : Type) (maxIndices grow : Nat) : Option (Table T) :=
  GrowTable maxIndices grow ([] : Table T)

/-- A mutating operation of the public interface, for statements about whole
operation sequences. -/
inductive Op (T : Type) where
  | acquire (rawObject : Option T)
  | release (h : Handle)

/-- Run one mutating operation on the table. -/
def stepOp (maxVersion maxIndices grow : Nat) (t : Table T) :
    Op T → Option (Table T)
  | Op.acquire o => (AqcuireHandle maxVersion maxIndices grow t o).map Prod.snd
  | Op.release h => ReleaseHandle t h

/-- Run a sequence of mutating operations; `none` as soon as one hits a fatal
path. -/
def runOps (maxVersion maxIndices grow : Nat) (t : Table T) :
    List (Op T) → Option (Table T)
  | [] => some t
  | op :: ops =>
    match stepOp maxVersion maxIndices grow t op with
    | some t2 => runOps maxVersion maxIndices grow t2 ops
    | none => none

/-- Repeat `ReleaseHandle` on the held handle followed by `AqcuireHandle`
of the object, `n` times, threading handle and table. -/
def releaseAcquireCycles (maxVersion maxIndices grow : Nat) (o : Option T) :
    Nat → Handle → Table T → Option (Handle × Table T)
  | 0, h, t => some (h, t)
  | n + 1, h, t =>
    match ReleaseHandle t h with
    | some t1 =>
      match AqcuireHandle maxVersion maxIndices grow t1 o with
      | some (h2, t2) => releaseAcquireCycles maxVersion maxIndices grow o n h2 t2
      | none => none
    | none => none

theorem findEmptySlot_some {t : Table T} {i : Nat}
    (h : findEmptySlot t = some i) : ∃ e, t[i]? = some e ∧ e.2 = none := by
  induction t generalizing i with
  | nil => simp [findEmptySlot] at h
  | cons e rest ih =>
    by_cases he : e.2.isNone
    · simp [findEmptySlot, he] at h
      subst h
      exact ⟨e, by simp, Option.isNone_iff_eq_none.mp he⟩
    · simp [findEmptySlot, he] at h
      obtain ⟨j, hj, rfl⟩ := h
      obtain ⟨f, hf, hf2⟩ := ih hj
      exact ⟨f, by simpa using hf, hf2⟩

theorem findEmptySlot_lt {t : Table T} {i : Nat}
    (h : findEmptySlot t = some i) {j : Nat} (hj : j < i) :
    ∃ e, t[j]? = some e ∧ e.2 ≠ none := by
  induction t generalizing i j with
  | nil => simp [findEmptySlot] at h
  | cons e rest ih =>
    by_cases he : e.2.isNone
    · simp [findEmptySlot, he] at h
      omega
    · simp [findEmptySlot, he] at h
      obtain ⟨k, hk, rfl⟩ := h
      cases j with
      | zero =>
        exact ⟨e, by simp, fun hc => he (Option.isNone_iff_eq_none.mpr hc)⟩
      | succ j2 =>
        obtain ⟨f, hf, hf2⟩ := ih hk (show j2 < k by omega)
        exact ⟨f, by simpa using hf, hf2⟩

theorem findEmptySlot_none {t : Table T} (h : findEmptySlot t = none)
    {j : Nat} {e : TableEntry T} (hj : t[j]? = some e) : e.2 ≠ none := by
  induction t generalizing j with
  | nil => simp at hj
  | cons f rest ih =>
    by_cases hf : f.2.isNone
    · simp [findEmptySlot, hf] at h
    · simp [findEmptySlot, hf] at h
      cases j with
      | zero =>
        have hfe : f = e := by simpa using hj
        exact hfe ▸ fun hc => hf (Option.isNone_iff_eq_none.mpr hc)
      | succ j2 => exact ih h (by simpa using hj)

theorem findEmptySlot_set_of_none {t : Table T} (h : findEmptySlot t = none)
    {i : Nat} (hi : i < t.length) (v : Nat) :
    findEmptySlot (t.set i (v, none)) = some i := by
  induction t generalizing i with
  | nil => simp at hi
  | cons f rest ih =>
    by_cases hf : f.2.isNone
    · simp [findEmptySlot, hf] at h
    · simp [findEmptySlot, hf] at h
      cases i with
      | zero => simp [findEmptySlot]
      | succ i2 =>
        simp [findEmptySlot, hf, ih h (by simpa using hi)]

theorem aqcuire_loop_eq (maxV maxI grow : Nat) {t : Table T} {i : Nat}
    {e : TableEntry T} (hfind : findEmptySlot t = some i)
    (hget : t[i]? = some e) (o : Option T) :
    AqcuireHandle maxV maxI grow t o =
      some (⟨i, nextVersion maxV e.1⟩, t.set i (nextVersion maxV e.1, o)) := by
  simp only [AqcuireHandle, hfind, hget]

/-- Claim C5: the compile-time constants of the two preconfigured handle
widths.  For the 32-bit handle (12 version / 20 index bits) and for the 64-bit
handle's version field (24 bits) the initializers evaluate as the spec states;
but the 64-bit handle's `MAX_INDICES` initializer `(1U << 40) - 1U` shifts the
32-bit literal `1U` by 40, which is undefined and in particular does not
denote `2 ^ 40 - 1`. -/
theorem handle_constants_c5 :
    Handle32.MAX_INDICES = some (2 ^ 20 - 1) ∧
    Handle32.MAX_VERSION = some (2 ^ 12 - 1) ∧
    Handle32.MIN_VERISON = 0 ∧
    Handle64.MAX_VERSION = some (2 ^ 24 - 1) ∧
    Handle64.MIN_VERISON = 0 ∧
    Handle64.MAX_INDICES = none ∧
    Handle64.MAX_INDICES ≠ some (2 ^ 40 - 1) := by
  refine ⟨rfl, rfl, rfl, rfl, rfl, rfl,
    by simp [Handle64.MAX_INDICES, Handle64.NUM_INDEX_BITS, shl1USub1]⟩

/-- Claim C1, evaluated at a failing input: on the growth path (table
`[(1, &7)]` full, growth increment 1, `Handle32` bounds) `AqcuireHandle`
returns `Handle(1, 0)` while the slot's version becomes 1, because of the
post-increment in `return Handle(i, m_Table[i].first++)`.  Immediately
afterwards the returned handle is already expired and dereferencing it is a
fatal precondition failure, contradicting the claim that `IsExpired(H)` is
false and `table[H]` returns the object. -/
theorem aqcuireHandle_growth_path_c1 :
    HandleTableInit Nat 1048575 1 = some [(0, none)] ∧
    AqcuireHandle 4095 1048575 1 ([(0, none)] : Table Nat) (some 7) =
      some (⟨0, 1⟩, [(1, some 7)]) ∧
    AqcuireHandle 4095 1048575 1 ([(1, some 7)] : Table Nat) (some 8) =
      some (⟨1, 0⟩, [(1, some 7), (1, some 8)]) ∧
    IsExpired ([(1, some 7), (1, some 8)] : Table Nat) ⟨1, 0⟩ = some true ∧
    deref ([(1, some 7), (1, some 8)] : Table Nat) ⟨1, 0⟩ = none := by
  refine ⟨rfl, rfl, rfl, rfl, rfl⟩

/-- Claim C2, refuted at a concrete input: acquiring into slot 0 yields handle
`(0, 1)`; releasing it clears the pointer but leaves the slot's version at 1
(not incremented), and `IsExpired` on the released handle is `false`, not
`true` as the claim states. -/
theorem releaseHandle_c2_counterexample :
    AqcuireHandle 4095 1048575 1 ([(0, none)] : Table Nat) (some 7) =
      some (⟨0, 1⟩, [(1, some 7)]) ∧
    ReleaseHandle ([(1, some 7)] : Table Nat) ⟨0, 1⟩ = some [(1, none)] ∧
    IsExpired ([(1, none)] : Table Nat) ⟨0, 1⟩ = some false ∧
    IsExpired ([(1, none)] : Table Nat) ⟨0, 1⟩ ≠ some true := by
  refine ⟨rfl, rfl, rfl, by decide⟩

/-- Claim C2 as amended: for every currently-valid handle, `ReleaseHandle`
clears the slot's pointer, so dereferencing yields the null result; the slot's
version is unchanged and `IsExpired` on the released handle is still `false`
(the version is only bumped at the slot's next acquisition). -/
theorem releaseHandle_c2_amended (T : Type) (t : Table T) (h : Handle)
    (e : TableEntry T) (hget : t[h.index]? = some e) (hver : h.version = e.1) :
    ReleaseHandle t h = some (t.set h.index (e.1, none)) ∧
    (t.set h.index (e.1, none))[h.index]? = some (e.1, none) ∧
    IsExpired (t.set h.index (e.1, none)) h = some false ∧
    deref (t.set h.index (e.1, none)) h = some none := by
  have hlt : h.index < t.length := (List.getElem?_eq_some_iff.mp hget).1
  have hset : (t.set h.index ((e.1, none) : TableEntry T))[h.index]? =
      some (e.1, none) := List.getElem?_set_self (by simpa using hlt)
  refine ⟨by simp [ReleaseHandle, hget, hver], hset, ?_, ?_⟩
  · simp [IsExpired, hset, hver]
  · simp [deref, hset, hver]

/-- Claim C3, refuted at a concrete input: slot 0 has version 2 (after a
release/re-acquire), so the old handle `(0, 1)` is stale; dereferencing it
hits the assertion (fatal), it does not return the null/empty result. -/
theorem deref_c3_counterexample :
    AqcuireHandle 4095 1048575 1 ([(1, none)] : Table Nat) (some 8) =
      some (⟨0, 2⟩, [(2, some 8)]) ∧
    deref ([(2, some 8)] : Table Nat) ⟨0, 1⟩ = none ∧
    deref ([(2, some 8)] : Table Nat) ⟨0, 1⟩ ≠ some none := by
  refine ⟨rfl, rfl, by decide⟩

/-- Claim C3 as amended: presenting a stale handle (index in bounds, version
different from the slot's) to `operator[](Handle)` is a fatal precondition
failure — the assertion checks version equality before the value check, so the
null/empty fallback of the return expression is unreachable. -/
theorem deref_c3_amended (T : Type) (t : Table T) (h : Handle)
    (e : TableEntry T) (hget : t[h.index]? = some e) (hver : h.version ≠ e.1) :
    deref t h = none := by
  simp [deref, hget, hver]

/-- Claim C4: releasing a currently-valid handle sets only the pointer field
of the slot at the handle's index to null; that slot's version counter, every
other slot, and the table's length are unchanged. -/
theorem releaseHandle_c4_frame (T : Type) (t : Table T) (h : Handle)
    (e : TableEntry T) (hget : t[h.index]? = some e) (hver : h.version = e.1) :
    ReleaseHandle t h = some (t.set h.index (e.1, none)) ∧
    (t.set h.index (e.1, none))[h.index]? = some (e.1, none) ∧
    (∀ j, j ≠ h.index → (t.set h.index (e.1, none))[j]? = t[j]?) ∧
    (t.set h.index (e.1, none)).length = t.length := by
  have hlt : h.index < t.length := (List.getElem?_eq_some_iff.mp hget).1
  refine ⟨by simp [ReleaseHandle, hget, hver],
    List.getElem?_set_self (by simpa using hlt), ?_, by simp⟩
  intro j hj
  exact List.getElem?_set_ne (fun hc => hj hc.symm)

theorem nextVersion_eq_mod (maxV v : Nat) (hv : v ≤ maxV) :
    nextVersion maxV v = (v + 1) % (maxV + 1) := by
  by_cases hlt : v < maxV
  · simp only [nextVersion]
    rw [if_neg (by omega), Nat.mod_eq_of_lt (by omega)]
  · have hve : v = maxV := by omega
    subst hve
    simp only [nextVersion]
    rw [if_pos (Nat.lt_succ_self v), Nat.mod_self]
    rfl

theorem aqcuire_growth_eq (maxV maxI grow : Nat) {t : Table T}
    (hfull : findEmptySlot t = none) (hlt : t.length < maxI) (hg : 0 < grow)
    (o : Option T) :
    AqcuireHandle maxV maxI grow t o =
      some (⟨t.length, MIN_VERISON⟩,
        (t ++ List.replicate (min (t.length + grow) maxI - t.length)
          ((MIN_VERISON : Nat), (none : Option T))).set t.length
          (MIN_VERISON + 1, o)) := by
  have hgrow : GrowTable maxI grow t =
      some (t ++ List.replicate (min (t.length + grow) maxI - t.length)
        ((MIN_VERISON : Nat), (none : Option T))) := by
    simp [GrowTable, hlt]
  have hk : 0 < min (t.length + grow) maxI - t.length := by omega
  have hget : (t ++ List.replicate (min (t.length + grow) maxI - t.length)
      ((MIN_VERISON : Nat), (none : Option T)))[t.length]? =
      some (MIN_VERISON, none) := by
    rw [List.getElem?_append_right (Nat.le_refl t.length), Nat.sub_self]
    exact List.getElem?_replicate_of_lt hk
  simp only [AqcuireHandle, hfull, hgrow, hget]

theorem stepOp_length (maxV maxI grow : Nat) {t t2 : Table T} {op : Op T}
    (h : stepOp maxV maxI grow t op = some t2) : t.length ≤ t2.length := by
  cases op with
  | release hh =>
    simp only [stepOp, ReleaseHandle] at h
    split at h
    · split at h
      · injection h with h2
        subst h2
        simp
      · cases h
    · cases h
  | acquire o =>
    simp only [stepOp, Option.map_eq_some'] at h
    obtain ⟨⟨hh, t3⟩, hacq, ht⟩ := h
    have ht3 : t3 = t2 := ht
    subst ht3
    unfold AqcuireHandle at hacq
    split at hacq
    · split at hacq
      · injection hacq with h2
        have hsnd := congrArg Prod.snd h2
        simp only at hsnd
        rw [← hsnd]
        simp
      · cases hacq
    · split at hacq
      · rename_i t4 hgrow
        split at hacq
        · injection hacq with h2
          have hsnd := congrArg Prod.snd h2
          simp only at hsnd
          rw [← hsnd]
          simp only [List.length_set]
          unfold GrowTable at hgrow
          split at hgrow
          · injection hgrow with h3
            rw [← h3]
            simp
          · cases hgrow
        · cases hacq
      · cases hacq

theorem runOps_length (maxV maxI grow : Nat) :
    ∀ (ops : List (Op T)) (t t2 : Table T),
      runOps maxV maxI grow t ops = some t2 → t.length ≤ t2.length := by
  intro ops
  induction ops with
  | nil =>
    intro t t2 h
    simp only [runOps, Option.some.injEq] at h
    exact h ▸ Nat.le_refl _
  | cons op ops ih =>
    intro t t2 h
    simp only [runOps] at h
    split at h
    · rename_i t3 heq
      exact Nat.le_trans (stepOp_length maxV maxI grow heq) (ih t3 t2 h)
    · cases h

/-- Claim C6: when the table has an empty slot, `AqcuireHandle` occupies the
empty slot with the smallest index (first-fit) and returns a handle with that
index, leaving the table's length unchanged; in particular, after releasing
the handle of an otherwise-full table's slot, the next acquisition returns a
handle at the same index whose version is the released version's successor
(wrapping past `MAX_VERSION` to `MIN_VERISON`), hence strictly greater
whenever no wraparound occurs. -/
theorem aqcuireHandle_c6_first_fit (maxV maxI grow : Nat) (T : Type)
    (t : Table T) (o : Option T) (i : Nat)
    (hfind : findEmptySlot t = some i) :
    (∃ e, t[i]? = some e ∧ e.2 = none ∧
      AqcuireHandle maxV maxI grow t o =
        some (⟨i, nextVersion maxV e.1⟩, t.set i (nextVersion maxV e.1, o)) ∧
      (t.set i (nextVersion maxV e.1, o)).length = t.length ∧
      (∀ j, j < i → ∃ f, t[j]? = some f ∧ f.2 ≠ none) ∧
      (e.1 < maxV → e.1 < nextVersion maxV e.1) ∧
      (e.1 = maxV → nextVersion maxV e.1 = MIN_VERISON)) ∧
    (∀ (t' : Table T) (h : Handle) (e' : TableEntry T),
      findEmptySlot t' = none → t'[h.index]? = some e' → h.version = e'.1 →
      ∃ t1 h2 t2, ReleaseHandle t' h = some t1 ∧
        AqcuireHandle maxV maxI grow t1 o = some (h2, t2) ∧
        h2.index = h.index ∧ h2.version = nextVersion maxV h.version ∧
        (h.version < maxV → h.version < h2.version)) := by
  constructor
  · obtain ⟨e, hget, he2⟩ := findEmptySlot_some hfind
    refine ⟨e, hget, he2, aqcuire_loop_eq maxV maxI grow hfind hget o,
      by simp, fun j hj => findEmptySlot_lt hfind hj, ?_, ?_⟩
    · intro hlt
      simp only [nextVersion]
      rw [if_neg (by omega)]
      omega
    · intro hmax
      simp only [nextVersion]
      rw [if_pos (by omega)]
  · intro t' h e' hfull hget' hver'
    have hlt : h.index < t'.length := (List.getElem?_eq_some_iff.mp hget').1
    have hrel : ReleaseHandle t' h = some (t'.set h.index (e'.1, none)) := by
      simp [ReleaseHandle, hget', hver']
    have hfind1 : findEmptySlot (t'.set h.index (e'.1, none)) = some h.index :=
      findEmptySlot_set_of_none hfull hlt e'.1
    have hget1 : (t'.set h.index ((e'.1, none) : TableEntry T))[h.index]? =
        some (e'.1, none) := List.getElem?_set_self (by simpa using hlt)
    refine ⟨_, ⟨h.index, nextVersion maxV e'.1⟩, _, hrel,
      aqcuire_loop_eq maxV maxI grow hfind1 hget1 o, rfl,
      by rw [hver'], ?_⟩
    intro hv
    have hnv : nextVersion maxV h.version = h.version + 1 := by
      simp only [nextVersion]
      rw [if_neg (by omega)]
    simp only [← hver', hnv]
    omega

theorem releaseAcquireCycles_closed (maxV maxI grow : Nat) (T : Type) (o : T) :
    ∀ (n v : Nat), v ≤ maxV →
      releaseAcquireCycles maxV maxI grow (some o) n ⟨0, v⟩
          ([(v, some o)] : Table T) =
        some (⟨0, (v + n) % (maxV + 1)⟩,
          [((v + n) % (maxV + 1), some o)]) := by
  intro n
  induction n with
  | zero =>
    intro v hv
    simp [releaseAcquireCycles, Nat.mod_eq_of_lt (show v < maxV + 1 by omega)]
  | succ n ih =>
    intro v hv
    have hrel : ReleaseHandle ([(v, some o)] : Table T) ⟨0, v⟩ =
        some [(v, none)] := by
      simp [ReleaseHandle]
    have hacq : AqcuireHandle maxV maxI grow ([(v, none)] : Table T)
        (some o) =
        some (⟨0, nextVersion maxV v⟩, [(nextVersion maxV v, some o)]) := by
      simp [AqcuireHandle, findEmptySlot]
    have hnv : nextVersion maxV v ≤ maxV := by
      simp only [nextVersion, MIN_VERISON]
      split <;> omega
    simp only [releaseAcquireCycles, hrel, hacq]
    rw [ih (nextVersion maxV v) hnv, nextVersion_eq_mod maxV v hv,
      Nat.mod_add_mod]
    have harith : v + 1 + n = v + (n + 1) := by omega
    rw [harith]

/-- Claim C7: reusing a slot updates its version from `v` to `v + 1` when
`v < MAX_VERSION` and to `MIN_VERISON` when `v = MAX_VERSION` (increment
modulo `MAX_VERSION + 1`), and repeating release/acquire on a slot any number
of times — in particular `MAX_VERSION + 2` times — follows exactly that
modular sequence, wrapping from `MAX_VERSION` back to `MIN_VERISON` without
any fatal precondition failure. -/
theorem version_wraparound_c7 (maxV maxI grow : Nat) (T : Type) (o : T)
    (v n : Nat) (hv : v ≤ maxV) :
    (v < maxV → nextVersion maxV v = v + 1) ∧
    nextVersion maxV maxV = MIN_VERISON ∧
    nextVersion maxV v = (v + 1) % (maxV + 1) ∧
    releaseAcquireCycles maxV maxI grow (some o) n ⟨0, v⟩
        ([(v, some o)] : Table T) =
      some (⟨0, (v + n) % (maxV + 1)⟩,
        [((v + n) % (maxV + 1), some o)]) := by
  refine ⟨?_, ?_, nextVersion_eq_mod maxV v hv,
    releaseAcquireCycles_closed maxV maxI grow T o n v hv⟩
  · intro hlt
    simp only [nextVersion]
    rw [if_neg (by omega)]
  · simp only [nextVersion]
    rw [if_pos (Nat.lt_succ_self maxV)]

/-- Claim C8: with the table below `MAX_INDICES`, growth extends the table to
length `min(length + grow, MAX_INDICES)`, initializes every new slot to
`(MIN_VERISON, nullptr)` and leaves every pre-existing slot untouched;
release never changes the length, an acquisition that finds an empty slot
never changes the length (growth is the only length-changing operation), and
the length never decreases across any sequence of acquire/release
operations. -/
theorem growth_c8 (maxV maxI grow : Nat) (T : Type) (t : Table T)
    (hlt : t.length < maxI) :
    (GrowTable maxI grow t = some (t ++ List.replicate
        (min (t.length + grow) maxI - t.length)
        ((MIN_VERISON : Nat), (none : Option T)))) ∧
    ((t ++ List.replicate (min (t.length + grow) maxI - t.length)
        ((MIN_VERISON : Nat), (none : Option T))).length =
      min (t.length + grow) maxI) ∧
    (∀ j, j < t.length → (t ++ List.replicate
        (min (t.length + grow) maxI - t.length)
        ((MIN_VERISON : Nat), (none : Option T)))[j]? = t[j]?) ∧
    (∀ j, t.length ≤ j → j < min (t.length + grow) maxI →
      (t ++ List.replicate (min (t.length + grow) maxI - t.length)
        ((MIN_VERISON : Nat), (none : Option T)))[j]? =
        some (MIN_VERISON, none)) ∧
    (∀ h t2, ReleaseHandle t h = some t2 → t2.length = t.length) ∧
    (∀ o i, findEmptySlot t = some i → ∀ h2 t2,
      AqcuireHandle maxV maxI grow t o = some (h2, t2) →
      t2.length = t.length) ∧
    (∀ ops t2, runOps maxV maxI grow t ops = some t2 →
      t.length ≤ t2.length) := by
  refine ⟨by simp [GrowTable, hlt], by simp; omega,
    fun j hj => List.getElem?_append_left hj, ?_, ?_, ?_, ?_⟩
  · intro j hj1 hj2
    rw [List.getElem?_append_right hj1]
    exact List.getElem?_replicate_of_lt (by omega)
  · intro h t2 hrel
    simp only [ReleaseHandle] at hrel
    split at hrel
    · split at hrel
      · injection hrel with h2
        rw [← h2]
        simp
      · cases hrel
    · cases hrel
  · intro o i hfind h2 t2 hacq
    obtain ⟨e, hget, _⟩ := findEmptySlot_some hfind
    rw [aqcuire_loop_eq maxV maxI grow hfind hget o] at hacq
    injection hacq with h3
    have hsnd := congrArg Prod.snd h3
    simp only at hsnd
    rw [← hsnd]
    simp
  · intro ops t2 hrun
    exact runOps_length maxV maxI grow ops t t2 hrun

/-- Claim C9: acquiring a handle when the table is full and its length has
reached `MAX_INDICES` is a fatal precondition failure (the assertion inside
`GrowTable`), not a returned error value; conversely, while the length is
below `MAX_INDICES` (and the growth increment is positive, as in every
instantiation — the default is 1024), `AqcuireHandle` completes without
hitting the assertion. -/
theorem exhaustion_c9 (maxV maxI grow : Nat) (T : Type) (t : Table T)
    (o : Option T) (hg : 0 < grow) :
    (findEmptySlot t = none → t.length = maxI →
      AqcuireHandle maxV maxI grow t o = none) ∧
    (t.length < maxI → ∃ h2 t2,
      AqcuireHandle maxV maxI grow t o = some (h2, t2)) := by
  constructor
  · intro hfull hlen
    simp [AqcuireHandle, hfull, GrowTable, hlen]
  · intro hlt
    cases hfind : findEmptySlot t with
    | some i =>
      obtain ⟨e, hget, _⟩ := findEmptySlot_some hfind
      exact ⟨_, _, aqcuire_loop_eq maxV maxI grow hfind hget o⟩
    | none =>
      exact ⟨_, _, aqcuire_growth_eq maxV maxI grow hfind hlt hg o⟩

/-- Claim C10: a freshly constructed `HandleTable` already holds
`min(grow, MAX_INDICES)` slots (1024 with the default increment), each
initialized to `(MIN_VERISON, nullptr)` — the constructor performs one
`GrowTable` step on an empty vector. -/
theorem init_c10 (maxI grow : Nat) (T : Type) (hpos : 0 < maxI) :
    HandleTableInit T maxI grow =
      some (List.replicate (min grow maxI)
        ((MIN_VERISON : Nat), (none : Option T))) ∧
    (List.replicate (min grow maxI)
      ((MIN_VERISON : Nat), (none : Option T))).length = min grow maxI ∧
    (∀ j, j < min grow maxI →
      (List.replicate (min grow maxI)
        ((MIN_VERISON : Nat), (none : Option T)))[j]? =
        some (MIN_VERISON, none)) := by
  refine ⟨?_, by simp, fun j hj => List.getElem?_replicate_of_lt hj⟩
  simp [HandleTableInit, GrowTable, hpos]

/-- Concrete instance of the amended claim C2: releasing handle `(0, 1)` from
the one-slot table holding object 7. -/
theorem releaseHandle_c2_amended_witness :
    ReleaseHandle ([(1, some 7)] : Table Nat) ⟨0, 1⟩ =
      some (([(1, some 7)] : Table Nat).set 0 (1, none)) ∧
    (([(1, some 7)] : Table Nat).set 0 (1, none))[0]? = some (1, none) ∧
    IsExpired (([(1, some 7)] : Table Nat).set 0 (1, none)) ⟨0, 1⟩ =
      some false ∧
    deref (([(1, some 7)] : Table Nat).set 0 (1, none)) ⟨0, 1⟩ = some none :=
  releaseHandle_c2_amended Nat [(1, some 7)] ⟨0, 1⟩ (1, some 7) rfl rfl

/-- Concrete instance of the amended claim C3: dereferencing the stale handle
`(0, 1)` when slot 0 carries version 2 is fatal. -/
theorem deref_c3_amended_witness :
    deref ([(2, some 8)] : Table Nat) ⟨0, 1⟩ = none :=
  deref_c3_amended Nat [(2, some 8)] ⟨0, 1⟩ (2, some 8) rfl (by decide)

/-- Concrete instance of claim C4: releasing handle `(0, 1)` from a two-slot
table touches only slot 0's pointer. -/
theorem releaseHandle_c4_frame_witness :
    ReleaseHandle ([(1, some 7), (2, some 8)] : Table Nat) ⟨0, 1⟩ =
      some (([(1, some 7), (2, some 8)] : Table Nat).set 0 (1, none)) ∧
    (([(1, some 7), (2, some 8)] : Table Nat).set 0 (1, none))[0]? =
      some (1, none) ∧
    (∀ j, j ≠ 0 →
      (([(1, some 7), (2, some 8)] : Table Nat).set 0 (1, none))[j]? =
        ([(1, some 7), (2, some 8)] : Table Nat)[j]?) ∧
    (([(1, some 7), (2, some 8)] : Table Nat).set 0 (1, none)).length =
      ([(1, some 7), (2, some 8)] : Table Nat).length :=
  releaseHandle_c4_frame Nat [(1, some 7), (2, some 8)] ⟨0, 1⟩ (1, some 7)
    rfl rfl

/-- Concrete instance of claim C6: the table `[(1, &7), (0, null)]` has its
first empty slot at index 1. -/
theorem aqcuireHandle_c6_first_fit_witness :
    (∃ e, ([(1, some 7), (0, none)] : Table Nat)[1]? = some e ∧ e.2 = none ∧
      AqcuireHandle 4095 1048575 1 ([(1, some 7), (0, none)] : Table Nat)
          (some 9) =
        some (⟨1, nextVersion 4095 e.1⟩,
          ([(1, some 7), (0, none)] : Table Nat).set 1
            (nextVersion 4095 e.1, some 9)) ∧
      (([(1, some 7), (0, none)] : Table Nat).set 1
        (nextVersion 4095 e.1, some 9)).length =
        ([(1, some 7), (0, none)] : Table Nat).length ∧
      (∀ j, j < 1 → ∃ f, ([(1, some 7), (0, none)] : Table Nat)[j]? =
        some f ∧ f.2 ≠ none) ∧
      (e.1 < 4095 → e.1 < nextVersion 4095 e.1) ∧
      (e.1 = 4095 → nextVersion 4095 e.1 = MIN_VERISON)) ∧
    (∀ (t' : Table Nat) (h : Handle) (e' : TableEntry Nat),
      findEmptySlot t' = none → t'[h.index]? = some e' → h.version = e'.1 →
      ∃ t1 h2 t2, ReleaseHandle t' h = some t1 ∧
        AqcuireHandle 4095 1048575 1 t1 (some 9) = some (h2, t2) ∧
        h2.index = h.index ∧ h2.version = nextVersion 4095 h.version ∧
        (h.version < 4095 → h.version < h2.version)) :=
  aqcuireHandle_c6_first_fit 4095 1048575 1 Nat [(1, some 7), (0, none)]
    (some 9) 1 rfl

/-- Concrete instance of claim C7 with `MAX_VERSION = 3`: five (that is,
`MAX_VERSION + 2`) release/acquire cycles starting from version 1. -/
theorem version_wraparound_c7_witness :
    (1 < 3 → nextVersion 3 1 = 1 + 1) ∧
    nextVersion 3 3 = MIN_VERISON ∧
    nextVersion 3 1 = (1 + 1) % (3 + 1) ∧
    releaseAcquireCycles 3 10 1 (some 7) 5 ⟨0, 1⟩
        ([(1, some 7)] : Table Nat) =
      some (⟨0, (1 + 5) % (3 + 1)⟩, [((1 + 5) % (3 + 1), some 7)]) :=
  version_wraparound_c7 3 10 1 Nat 7 1 5 (by decide)

/-- Concrete instance of claim C8: a one-slot table, growth increment 3,
`MAX_INDICES = 10`. -/
theorem growth_c8_witness :
    (GrowTable 10 3 ([(1, some 7)] : Table Nat) =
      some (([(1, some 7)] : Table Nat) ++ List.replicate (min (1 + 3) 10 - 1)
        ((MIN_VERISON : Nat), (none : Option Nat)))) ∧
    ((([(1, some 7)] : Table Nat) ++ List.replicate (min (1 + 3) 10 - 1)
      ((MIN_VERISON : Nat), (none : Option Nat))).length = min (1 + 3) 10) ∧
    (∀ j, j < 1 → (([(1, some 7)] : Table Nat) ++
      List.replicate (min (1 + 3) 10 - 1)
        ((MIN_VERISON : Nat), (none : Option Nat)))[j]? =
      ([(1, some 7)] : Table Nat)[j]?) ∧
    (∀ j, 1 ≤ j → j < min (1 + 3) 10 →
      (([(1, some 7)] : Table Nat) ++ List.replicate (min (1 + 3) 10 - 1)
        ((MIN_VERISON : Nat), (none : Option Nat)))[j]? =
        some (MIN_VERISON, none)) ∧
    (∀ h t2, ReleaseHandle ([(1, some 7)] : Table Nat) h = some t2 →
      t2.length = 1) ∧
    (∀ o i, findEmptySlot ([(1, some 7)] : Table Nat) = some i → ∀ h2 t2,
      AqcuireHandle 3 10 3 ([(1, some 7)] : Table Nat) o = some (h2, t2) →
      t2.length = 1) ∧
    (∀ ops t2, runOps 3 10 3 ([(1, some 7)] : Table Nat) ops = some t2 →
      1 ≤ t2.length) :=
  growth_c8 3 10 3 Nat [(1, some 7)] (by decide)

/-- Concrete instance of claim C9: a one-slot table below `MAX_INDICES = 10`
with growth increment 2. -/
theorem exhaustion_c9_witness :
    (findEmptySlot ([(1, some 7)] : Table Nat) = none → 1 = 10 →
      AqcuireHandle 3 10 2 ([(1, some 7)] : Table Nat) (some 9) = none) ∧
    (1 < 10 → ∃ h2 t2,
      AqcuireHandle 3 10 2 ([(1, some 7)] : Table Nat) (some 9) =
        some (h2, t2)) :=
  exhaustion_c9 3 10 2 Nat [(1, some 7)] (some 9) (by decide)

/-- Concrete instance of claim C10: `MAX_INDICES = 10`, growth increment 4. -/
theorem init_c10_witness :
    HandleTableInit Nat 10 4 = some (List.replicate (min 4 10)
      ((MIN_VERISON : Nat), (none : Option Nat))) ∧
    (List.replicate (min 4 10)
      ((MIN_VERISON : Nat), (none : Option Nat))).length = min 4 10 ∧
    (∀ j, j < min 4 10 → (List.replicate (min 4 10)
      ((MIN_VERISON : Nat), (none : Option Nat)))[j]? =
      some (MIN_VERISON, none)) :=
  init_c10 10 4 Nat (by decide)

end util
end ECS
